import Mathlib

/-!
A shallow embedding of the core of the go-health library (health.go):
the `State` record, the `Health` scheduler, its lifecycle operations
(`AddCheck`, `AddChecks`, `Start`, `Stop`, `State`, `Failed`), the
per-tick check execution (`startRunner`'s `checkFunc`), the transition
dispatcher (`handleStatusListener`) and the concurrency-safe state-store
helpers (`safeUpdateState`, `safeGetStates`, `safeResetStates`).

Modelling conventions:
* Go `time.Time` values are modelled as `Int` (nanoseconds since epoch);
  the zero timestamp is `0`.  `Duration.Seconds()` (a float in Go) is
  modelled exactly as a rational: nanoseconds divided by 10^9.
* A Go `map[string]State` is modelled as an association list with
  Go-map write semantics (`mapSet` overwrites the entry for a key);
  a read of a missing key yields the zero value, as in Go (`mapGet`).
* `*Config` (a possibly-nil pointer) is `Option Config`; dereferencing
  `none` is a nil-pointer panic, modelled by an `Option` result (`none` =
  panic) on the operation that dereferences.
* A checker (`ICheckable`) is external I/O; one invocation's outcome is a
  `TickIn`: the `interface{}` details payload, the optional failure error
  (its message string) and the clock reading for that tick.  The several
  `time.Now()` reads inside one tick are abstracted to the single reading
  `TickIn.now`.
* The logger is omitted (it carries no state the claims mention); the
  status listener is modelled by its presence flag plus the list of
  dispatched callback events (`Event`); goroutine dispatch of a callback
  is modelled by the event being emitted at that program point.
-/

/-- Go `time.Duration.Seconds()`: nanoseconds as fractional seconds. -/
def durationSeconds (d : Int) : ℚ := (d : ℚ) / 1000000000

/-- The `State` struct of health.go: the result of the latest run of a
particular check. -/
structure State where
  Name : String
  Status : String
  Err : String
  Fatal : Bool
  Details : Option String
  CheckTime : Int
  ContiguousFailures : Int
  TimeOfFirstFailure : Int
deriving Repr, DecidableEq

/-- The Go zero value of `State` (what `h.states[name]` yields for a
missing key). -/
def zeroState : State :=
  { Name := "", Status := "", Err := "", Fatal := false, Details := none,
    CheckTime := 0, ContiguousFailures := 0, TimeOfFirstFailure := 0 }

/-- `func (s *State) isFailure() bool` of health.go. -/
def State.isFailure (s : State) : Bool := s.Status == "failed"

/-- `h.states : map[string]State`, as an association list with Go-map
semantics. -/
abbrev StatesMap := List (String × State)

/-- Go map read `m[k]`: the stored value, or the zero value when the key
is absent. -/
def mapGet (m : StatesMap) (k : String) : State := (m.lookup k).getD zeroState

/-- Go map write `m[k] = v`: overwrites any existing entry for `k`. -/
def mapSet (m : StatesMap) (k : String) (v : State) : StatesMap :=
  (k, v) :: m.filter (fun p => p.1 ≠ k)

/-- The `Config` struct of health.go.  The `Checker` field is external
I/O and is not carried here (each invocation outcome arrives as a
`TickIn`); `OnComplete` is carried as its presence flag. -/
structure Config where
  Name : String
  Interval : Int
  Fatal : Bool
  hasOnComplete : Bool
deriving Repr, DecidableEq

/-- The outcome of one checker invocation together with the clock
reading of that tick: models the pair returned by
`cfg.Checker.Status()` plus `time.Now()`. -/
structure TickIn where
  data : Option String
  failErr : Option String
  now : Int
deriving Repr, DecidableEq

/-- A status-listener callback dispatch (`go h.StatusListener...`).
`healthCheckFailed` carries the state entry as it is at the dispatch
point; `healthCheckRecovered` carries the entry, the previous contiguous
failure count and the failure duration in (fractional) seconds. -/
inductive Event where
  | healthCheckFailed (entry : State)
  | healthCheckRecovered (entry : State) (recordedFailures : Int)
      (failureDurationSeconds : ℚ)
deriving Repr, DecidableEq

def Event.isFailedEvent : Event → Bool
  | .healthCheckFailed _ => true
  | _ => false

def Event.isRecoveredEvent : Event → Bool
  | .healthCheckRecovered _ _ _ => true
  | _ => false

/-- `func (h *Health) handleStatusListener(stateEntry *State)` of
health.go, as a function from the states map, the prospective entry and
the tick's clock reading to the mutated entry and the dispatched
listener events (`listener` is whether `h.StatusListener != nil`). -/
def handleStatusListener (listener : Bool) (states : StatesMap)
    (stateEntry : State) (now : Int) : State × List Event :=
  let prevState := mapGet states stateEntry.Name
  if stateEntry.isFailure then
    if ¬ prevState.isFailure then
      -- new failure: previous state was ok; the listener is dispatched
      -- before TimeOfFirstFailure is written, as in the source
      let evs := if listener then [Event.healthCheckFailed stateEntry] else []
      let e1 := { stateEntry with TimeOfFirstFailure := now }
      ({ e1 with ContiguousFailures := prevState.ContiguousFailures + 1 }, evs)
    else
      -- carry the time of first failure from the previous state
      let e1 := { stateEntry with TimeOfFirstFailure := prevState.TimeOfFirstFailure }
      ({ e1 with ContiguousFailures := prevState.ContiguousFailures + 1 }, [])
  else if prevState.isFailure then
    -- recovery, previous state was failure
    let failureSeconds := durationSeconds (now - prevState.TimeOfFirstFailure)
    (stateEntry,
      if listener then
        [Event.healthCheckRecovered stateEntry prevState.ContiguousFailures failureSeconds]
      else [])
  else (stateEntry, [])

/-- The prospective state entry built at the top of `checkFunc`:
`stateEntry := &State{Name: cfg.Name, Status: "ok", Details: data,
CheckTime: time.Now(), Fatal: cfg.Fatal}` (unset fields are Go zero
values). -/
def initialEntry (cfg : Config) (t : TickIn) : State :=
  { Name := cfg.Name, Status := "ok", Err := "", Fatal := cfg.Fatal,
    Details := t.data, CheckTime := t.now,
    ContiguousFailures := 0, TimeOfFirstFailure := 0 }

/-- The prospective entry after `checkFunc`'s error branch
(`stateEntry.Err = err.Error(); stateEntry.Status = "failed"`). -/
def failedEntry (cfg : Config) (t : TickIn) (msg : String) : State :=
  { initialEntry cfg t with Err := msg, Status := "failed" }

/-- The prospective entry for a tick: the error branch applies exactly
when the checker returned an error. -/
def prospectiveEntry (cfg : Config) (t : TickIn) : State :=
  match t.failErr with
  | some msg => failedEntry cfg t msg
  | none => initialEntry cfg t

/-- The `checkFunc` closure of `startRunner` in health.go, for one tick:
builds the prospective state entry from the checker outcome, routes it
through `handleStatusListener`, and stores it via `safeUpdateState`
(`h.states[stateEntry.Name] = *stateEntry`).  Returns the updated map,
the dispatched listener events, and the final state entry (the value the
`OnComplete` hook's pointer argument refers to). -/
def checkFunc (listener : Bool) (cfg : Config) (states : StatesMap)
    (t : TickIn) : StatesMap × List Event × State :=
  let r := handleStatusListener listener states (prospectiveEntry cfg t) t.now
  (mapSet states r.1.Name r.1, r.2, r.1)

/-- Iterated ticks of one check's worker: each tick runs `checkFunc`;
events are concatenated in dispatch order. -/
def runTicks (listener : Bool) (cfg : Config) (states : StatesMap) :
    List TickIn → StatesMap × List Event
  | [] => (states, [])
  | t :: ts =>
    let r := checkFunc listener cfg states t
    let rest := runTicks listener cfg r.1 ts
    (rest.1, r.2.1 ++ rest.2)

/-- The state stored for `cfg.Name` after running `ts` ticks of `cfg`'s
worker from store `m` (a missing key reads as the Go zero value). -/
def storedAfter (listener : Bool) (cfg : Config) (m : StatesMap)
    (ts : List TickIn) : State :=
  mapGet (runTicks listener cfg m ts).1 cfg.Name

/-- The error values of health.go (`ErrNoAddCfgWhenActive`,
`ErrAlreadyRunning`, `ErrAlreadyStopped`, `ErrEmptyConfigs`). -/
inductive HErr where
  | errNoAddCfgWhenActive
  | errAlreadyRunning
  | errAlreadyStopped
  | errEmptyConfigs
deriving Repr, DecidableEq

/-- The runner map `h.runners : map[string]chan struct{}`; the stop
channel itself carries no data relevant here. -/
abbrev RunnersMap := List (String × Unit)

/-- Go map write on the runner map (`h.runners[c.Name] = stop`). -/
def runnerSet (m : RunnersMap) (k : String) : RunnersMap :=
  (k, ()) :: m.filter (fun p => p.1 ≠ k)

/-- The `Health` struct of health.go.  The logger is omitted; the
status listener is carried as its presence flag. -/
structure Health where
  hasStatusListener : Bool
  active : Bool
  configs : List (Option Config)
  states : StatesMap
  runners : RunnersMap
deriving Repr, DecidableEq

/-- `func New() *Health` of health.go. -/
def Health.New : Health :=
  { hasStatusListener := false, active := false, configs := [],
    states := [], runners := [] }

/-- `func (h *Health) AddChecks(cfgs []*Config) error` of health.go. -/
def Health.AddChecks (h : Health) (cfgs : List (Option Config)) :
    Except HErr Health :=
  if h.active then .error .errNoAddCfgWhenActive
  else .ok { h with configs := h.configs ++ cfgs }

/-- `func (h *Health) AddCheck(cfg *Config) error` of health.go. -/
def Health.AddCheck (h : Health) (cfg : Option Config) :
    Except HErr Health :=
  if h.active then .error .errNoAddCfgWhenActive
  else .ok { h with configs := h.configs ++ [cfg] }

/-- The `for _, c := range h.configs` loop body of `Start`: each config
pointer is dereferenced (`c.Name`, `c.Interval`) with no nil guard —
a `none` config is a nil-pointer panic, modelled by result `none`. -/
def startRunners (h : Health) : List (Option Config) → Option Health
  | [] => some h
  | none :: _ => none
  | some c :: rest =>
    -- time.NewTicker(c.Interval); h.startRunner(c, ticker, stop);
    -- h.runners[c.Name] = stop
    let _ := c.Interval
    startRunners { h with runners := runnerSet h.runners c.Name } rest

/-- `func (h *Health) Start() error` of health.go.  Result `none`
models a panic (nil config dereference); `some r` is a normal return
with `r` the returned error or the updated instance. -/
def Health.Start (h : Health) : Option (Except HErr Health) :=
  if h.active then some (.error .errAlreadyRunning)
  else if h.configs.length < 1 then
    -- if there are no check configs, this is a noop
    some (.ok h)
  else
    match startRunners h h.configs with
    | none => none
    | some h1 => some (.ok { h1 with active := true })

/-- `func (h *Health) Stop() error` of health.go: closes every stop
channel, resets the runner map and the state store.  (The source never
writes `h.active`; the flag is left as it was.) -/
def Health.Stop (h : Health) : Except HErr Health :=
  if ¬ h.active then .error .errAlreadyStopped
  else .ok { h with runners := [], states := [] }

/-- The copy loop of `safeGetStates`:
`statesCopy := make(map[string]State, 0); for k, v := range h.states
\x7b statesCopy[k] = v \x7d`. -/
def copyStates (m : StatesMap) : StatesMap :=
  m.foldl (fun statesCopy p => mapSet statesCopy p.1 p.2) []

/-- `func (h *Health) safeGetStates() map[string]State` of health.go. -/
def Health.safeGetStates (h : Health) : StatesMap := copyStates h.states

/-- `func (h *Health) Failed() bool` of health.go: ranges over
`h.safeGetStates()` and returns true on the first fatal failing state. -/
def Health.Failed (h : Health) : Bool :=
  h.safeGetStates.any (fun p => p.2.Fatal && p.2.isFailure)

/-- `func (h *Health) State() (map[string]State, bool, error)` of
health.go. -/
def Health.StateOp (h : Health) : StatesMap × Bool × Option HErr :=
  (h.safeGetStates, h.Failed, none)

/-! ### Reference-level models

Go distinguishes the map object `h.states` (shared, mutable) from the
value copies handed out by `safeGetStates`, and the heap object
`*stateEntry` from the value stored into the map by `safeUpdateState`.
The two small heaps below make those aliasing distinctions explicit:
references are `Nat` indices into a heap, and a fresh allocation uses
the `next` counter. -/

/-- A heap of `map[string]State` objects; a reference is an index. -/
structure MapHeap where
  data : Nat → StatesMap
  next : Nat

/-- `make(map[string]State, 0)` followed by filling with `m`: a fresh
map object. -/
def allocMap (hp : MapHeap) (m : StatesMap) : Nat × MapHeap :=
  (hp.next,
   { data := fun r => if r = hp.next then m else hp.data r,
     next := hp.next + 1 })

/-- Overwrite the map object behind reference `r`. -/
def writeMapRef (hp : MapHeap) (r : Nat) (m : StatesMap) : MapHeap :=
  { data := fun x => if x = r then m else hp.data x, next := hp.next }

/-- `func (h *Health) safeGetStates() map[string]State` at the
reference level: allocates a fresh map object and runs the copy loop
into it; the store object is only read. -/
def safeGetStatesH (hp : MapHeap) (store : Nat) : Nat × MapHeap :=
  allocMap hp (copyStates (hp.data store))

/-- `func (h *Health) Failed() bool` at the reference level: ranges
over a fresh `safeGetStates()` copy. -/
def FailedH (hp : MapHeap) (store : Nat) : Bool × MapHeap :=
  let r := safeGetStatesH hp store
  ((r.2.data r.1).any (fun p => p.2.Fatal && p.2.isFailure), r.2)

/-- `func (h *Health) State() (map[string]State, bool, error)` at the
reference level: `return h.safeGetStates(), h.Failed(), nil`. -/
def StateOpH (hp : MapHeap) (store : Nat) :
    (Nat × Bool × Option HErr) × MapHeap :=
  let r1 := safeGetStatesH hp store
  let r2 := FailedH r1.2 store
  ((r1.1, r2.1, none), r2.2)

/-- A mutation a caller may perform on a snapshot it was handed:
overwrite/add an entry (`m[k] = v`) or remove one (`delete(m, k)`). -/
inductive MapMut where
  | set (k : String) (v : State)
  | del (k : String)
deriving Repr, DecidableEq

def applyMut (m : StatesMap) : MapMut → StatesMap
  | .set k v => mapSet m k v
  | .del k => m.filter (fun p => p.1 ≠ k)

/-- Apply one caller mutation to the map object behind `r`. -/
def mutateRef (hp : MapHeap) (r : Nat) (mu : MapMut) : MapHeap :=
  writeMapRef hp r (applyMut (hp.data r) mu)

/-- Apply a sequence of caller mutations to the map object behind `r`. -/
def mutateRefAll (hp : MapHeap) (r : Nat) : List MapMut → MapHeap
  | [] => hp
  | mu :: mus => mutateRefAll (mutateRef hp r mu) r mus

/-- A heap of `State` objects (`*State` pointees). -/
structure SHeap where
  data : Nat → State
  next : Nat

/-- `stateEntry := &State{...}`: allocate a fresh `State` object. -/
def allocS (hp : SHeap) (s : State) : Nat × SHeap :=
  (hp.next,
   { data := fun r => if r = hp.next then s else hp.data r,
     next := hp.next + 1 })

/-- Overwrite the `State` object behind reference `r`. -/
def writeS (hp : SHeap) (r : Nat) (s : State) : SHeap :=
  { data := fun x => if x = r then s else hp.data x, next := hp.next }

/-- The result of one tick of `checkFunc` at the reference level. -/
structure CheckRunH where
  states : StatesMap
  heap : SHeap
  entry : Nat
  events : List Event
  hookArg : Option Nat

/-- The `checkFunc` closure of `startRunner` at the reference level:
`stateEntry := &State{...}` allocates an object; the failure branch and
`handleStatusListener` write fields through the pointer;
`safeUpdateState` stores the dereferenced value
(`h.states[stateEntry.Name] = *stateEntry`) into the map; finally
`go cfg.OnComplete(stateEntry)` — when the hook is present — receives
the pointer `stateEntry` itself, after the store. -/
def checkFuncH (listener : Bool) (cfg : Config) (states : StatesMap)
    (t : TickIn) (hp : SHeap) : CheckRunH :=
  let al := allocS hp (initialEntry cfg t)
  let hp1 :=
    match t.failErr with
    | some msg => writeS al.2 al.1 (failedEntry cfg t msg)
    | none => al.2
  let hs := handleStatusListener listener states (hp1.data al.1) t.now
  let hp2 := writeS hp1 al.1 hs.1
  { states := mapSet states (hp2.data al.1).Name (hp2.data al.1),
    heap := hp2, entry := al.1, events := hs.2,
    hookArg := if cfg.hasOnComplete then some al.1 else none }

/-- A sample configuration used by concrete witnesses below. -/
def cfgFoo : Config :=
  { Name := "foo", Interval := 10, Fatal := false, hasOnComplete := false }

/-- A sample fatal configuration used by concrete witnesses below. -/
def cfgBar : Config :=
  { Name := "bar", Interval := 10, Fatal := true, hasOnComplete := true }

/-- Sample stored state: a non-fatal failing entry. -/
def stBarFail : State :=
  { zeroState with Name := "bar", Status := "failed", Fatal := false }

/-- Sample instance whose store holds one non-fatal failing state. -/
def hSampleNonFatal : Health :=
  { Health.New with states := [("bar", stBarFail)] }

/-- `New()` after `AddCheck(cfgFoo)`. -/
def hCfgFoo : Health := { Health.New with configs := [some cfgFoo] }

/-- `hCfgFoo` after a successful `Start()`. -/
def hRunning : Health :=
  { Health.New with
      configs := [some cfgFoo]
      active := true
      runners := [("foo", ())] }

/-- `hRunning` after a successful `Stop()`: runner map and states reset,
but the active flag still set (the source never clears it). -/
def hStopped : Health :=
  { Health.New with configs := [some cfgFoo], active := true }

/-! ## Helper lemmas -/

example : (Health.New.AddCheck (some cfgFoo)).isOk = true := by decide

example :
    (runTicks true cfgBar []
      [⟨none, some "boom", 5⟩, ⟨none, some "boom", 7⟩, ⟨none, none, 9⟩]).2 =
    [Event.healthCheckFailed
        { Name := "bar", Status := "failed", Err := "boom", Fatal := true,
          Details := none, CheckTime := 5, ContiguousFailures := 0,
          TimeOfFirstFailure := 0 },
      Event.healthCheckRecovered
        { Name := "bar", Status := "ok", Err := "", Fatal := true,
          Details := none, CheckTime := 9, ContiguousFailures := 0,
          TimeOfFirstFailure := 0 } 2 (durationSeconds (9 - 5))] := rfl

theorem mapGet_mapSet_self (m : StatesMap) (k : String) (v : State) :
    mapGet (mapSet m k v) k = v := by
  simp [mapGet, mapSet, List.lookup]

theorem copyFold_eq (m : StatesMap) :
    ∀ acc : StatesMap, (m.map Prod.fst).Nodup →
      (∀ p ∈ m, ∀ q ∈ acc, p.1 ≠ q.1) →
      m.foldl (fun statesCopy p => mapSet statesCopy p.1 p.2) acc =
        m.reverse ++ acc := by
  induction m with
  | nil => intro acc _ _; simp
  | cons a t ih =>
    intro acc hnd hdisj
    have hnd1 : (a.1 :: t.map Prod.fst).Nodup := by simpa using hnd
    have hfilter : acc.filter (fun q => decide (q.1 ≠ a.1)) = acc := by
      apply List.filter_eq_self.mpr
      intro q hq
      simp only [ne_eq, decide_eq_true_eq]
      exact fun hEq => (hdisj a (by simp) q hq) hEq.symm
    have hstep :
        List.foldl (fun statesCopy q => mapSet statesCopy q.1 q.2) acc (a :: t) =
        List.foldl (fun statesCopy q => mapSet statesCopy q.1 q.2) (a :: acc) t := by
      simp only [List.foldl_cons, mapSet, hfilter]
    have hdisj2 : ∀ p ∈ t, ∀ q ∈ a :: acc, p.1 ≠ q.1 := by
      intro p hp q hqmem
      rcases List.mem_cons.mp hqmem with hqa | hqacc
      · intro hEq
        have hmem : p.1 ∈ t.map Prod.fst := List.mem_map.mpr ⟨p, hp, rfl⟩
        rw [hEq, hqa] at hmem
        exact (List.nodup_cons.mp hnd1).1 hmem
      · exact hdisj p (List.mem_cons_of_mem _ hp) q hqacc
    rw [hstep, ih (a :: acc) (List.nodup_cons.mp hnd1).2 hdisj2]
    simp

theorem copyStates_eq_reverse (m : StatesMap)
    (hnd : (m.map Prod.fst).Nodup) : copyStates m = m.reverse := by
  have := copyFold_eq m [] hnd (by intro p _ q hq; cases hq)
  simpa [copyStates] using this

theorem startRunners_append_none (h : Health) (l : List (Option Config)) :
    startRunners h (l ++ [none]) = none := by
  induction l generalizing h with
  | nil => rfl
  | cons c t ih =>
    cases c with
    | none => rfl
    | some c => simpa [startRunners] using ih _

theorem start_inactive_not_error (h : Health) (e : HErr)
    (hA : h.active = false) : h.Start ≠ some (.error e) := by
  rw [Health.Start, hA]
  simp only [Bool.false_eq_true, if_false]
  split
  · simp
  · cases hsr : startRunners h h.configs <;> simp

theorem hsl_fresh_failure (l : Bool) (m : StatesMap) (e : State) (now : Int)
    (he : e.isFailure = true) (hp : (mapGet m e.Name).isFailure = false) :
    handleStatusListener l m e now =
      ({ e with TimeOfFirstFailure := now,
                ContiguousFailures := (mapGet m e.Name).ContiguousFailures + 1 },
       if l then [Event.healthCheckFailed e] else []) := by
  unfold handleStatusListener
  simp [he, hp]

theorem hsl_repeat_failure (l : Bool) (m : StatesMap) (e : State) (now : Int)
    (he : e.isFailure = true) (hp : (mapGet m e.Name).isFailure = true) :
    handleStatusListener l m e now =
      ({ e with TimeOfFirstFailure := (mapGet m e.Name).TimeOfFirstFailure,
                ContiguousFailures := (mapGet m e.Name).ContiguousFailures + 1 },
       []) := by
  unfold handleStatusListener
  simp [he, hp]

theorem hsl_recovery (l : Bool) (m : StatesMap) (e : State) (now : Int)
    (he : e.isFailure = false) (hp : (mapGet m e.Name).isFailure = true) :
    handleStatusListener l m e now =
      (e,
       if l then
         [Event.healthCheckRecovered e (mapGet m e.Name).ContiguousFailures
           (durationSeconds (now - (mapGet m e.Name).TimeOfFirstFailure))]
       else []) := by
  unfold handleStatusListener
  simp [he, hp]

theorem hsl_still_ok (l : Bool) (m : StatesMap) (e : State) (now : Int)
    (he : e.isFailure = false) (hp : (mapGet m e.Name).isFailure = false) :
    handleStatusListener l m e now = (e, []) := by
  unfold handleStatusListener
  simp [he, hp]

theorem bool_not_true {b : Bool} (h : ¬ b = true) : b = false := by
  cases b
  · rfl
  · exact absurd rfl h

theorem initialEntry_not_failure (cfg : Config) (t : TickIn) :
    (initialEntry cfg t).isFailure = false := rfl

theorem initialEntry_Name (cfg : Config) (t : TickIn) :
    (initialEntry cfg t).Name = cfg.Name := rfl

theorem failedEntry_Name (cfg : Config) (t : TickIn) (msg : String) :
    (failedEntry cfg t msg).Name = cfg.Name := rfl

theorem failedEntry_is_failure (cfg : Config) (t : TickIn) (msg : String) :
    (failedEntry cfg t msg).isFailure = true := rfl

theorem prospectiveEntry_ok (cfg : Config) (t : TickIn)
    (ht : t.failErr = none) : prospectiveEntry cfg t = initialEntry cfg t := by
  simp [prospectiveEntry, ht]

theorem prospectiveEntry_fail (cfg : Config) (t : TickIn) (msg : String)
    (ht : t.failErr = some msg) :
    prospectiveEntry cfg t = failedEntry cfg t msg := by
  simp [prospectiveEntry, ht]

theorem hsl_preserves (l : Bool) (m : StatesMap) (e : State) (now : Int) :
    (handleStatusListener l m e now).1.Name = e.Name ∧
    (handleStatusListener l m e now).1.Status = e.Status ∧
    (handleStatusListener l m e now).1.Err = e.Err ∧
    (handleStatusListener l m e now).1.Fatal = e.Fatal ∧
    (handleStatusListener l m e now).1.Details = e.Details ∧
    (handleStatusListener l m e now).1.CheckTime = e.CheckTime := by
  by_cases he : e.isFailure = true
  · by_cases hp : (mapGet m e.Name).isFailure = true
    · rw [hsl_repeat_failure l m e now he hp]
      exact ⟨rfl, rfl, rfl, rfl, rfl, rfl⟩
    · rw [hsl_fresh_failure l m e now he (bool_not_true hp)]
      exact ⟨rfl, rfl, rfl, rfl, rfl, rfl⟩
  · by_cases hp : (mapGet m e.Name).isFailure = true
    · rw [hsl_recovery l m e now (bool_not_true he) hp]
      exact ⟨rfl, rfl, rfl, rfl, rfl, rfl⟩
    · rw [hsl_still_ok l m e now (bool_not_true he) (bool_not_true hp)]
      exact ⟨rfl, rfl, rfl, rfl, rfl, rfl⟩

theorem checkFunc_ok_eq (l : Bool) (cfg : Config) (m : StatesMap)
    (t : TickIn) (ht : t.failErr = none) :
    checkFunc l cfg m t =
      (mapSet m cfg.Name (initialEntry cfg t),
       (if (mapGet m cfg.Name).isFailure then
          (if l then
            [Event.healthCheckRecovered (initialEntry cfg t)
              (mapGet m cfg.Name).ContiguousFailures
              (durationSeconds
                (t.now - (mapGet m cfg.Name).TimeOfFirstFailure))]
          else [])
        else []),
       initialEntry cfg t) := by
  by_cases hp : (mapGet m cfg.Name).isFailure = true
  · simp only [checkFunc, prospectiveEntry_ok cfg t ht,
      hsl_recovery l m (initialEntry cfg t) t.now rfl hp, hp, if_true,
      initialEntry_Name]
  · have hp2 := bool_not_true hp
    simp only [checkFunc, prospectiveEntry_ok cfg t ht,
      hsl_still_ok l m (initialEntry cfg t) t.now rfl hp2, hp2,
      Bool.false_eq_true, if_false, initialEntry_Name]

theorem checkFunc_fail_fresh_eq (l : Bool) (cfg : Config) (m : StatesMap)
    (t : TickIn) (msg : String) (ht : t.failErr = some msg)
    (hp : (mapGet m cfg.Name).isFailure = false) :
    checkFunc l cfg m t =
      (mapSet m cfg.Name
        { failedEntry cfg t msg with
            TimeOfFirstFailure := t.now
            ContiguousFailures := (mapGet m cfg.Name).ContiguousFailures + 1 },
       (if l then [Event.healthCheckFailed (failedEntry cfg t msg)] else []),
       { failedEntry cfg t msg with
           TimeOfFirstFailure := t.now
           ContiguousFailures := (mapGet m cfg.Name).ContiguousFailures + 1 }) := by
  simp only [checkFunc, prospectiveEntry_fail cfg t msg ht,
    hsl_fresh_failure l m (failedEntry cfg t msg) t.now rfl hp,
    failedEntry_Name]

theorem checkFunc_fail_repeat_eq (l : Bool) (cfg : Config) (m : StatesMap)
    (t : TickIn) (msg : String) (ht : t.failErr = some msg)
    (hp : (mapGet m cfg.Name).isFailure = true) :
    checkFunc l cfg m t =
      (mapSet m cfg.Name
        { failedEntry cfg t msg with
            TimeOfFirstFailure := (mapGet m cfg.Name).TimeOfFirstFailure
            ContiguousFailures := (mapGet m cfg.Name).ContiguousFailures + 1 },
       [],
       { failedEntry cfg t msg with
           TimeOfFirstFailure := (mapGet m cfg.Name).TimeOfFirstFailure
           ContiguousFailures := (mapGet m cfg.Name).ContiguousFailures + 1 }) := by
  simp only [checkFunc, prospectiveEntry_fail cfg t msg ht,
    hsl_repeat_failure l m (failedEntry cfg t msg) t.now rfl hp,
    failedEntry_Name]

theorem mapGet_checkFunc (l : Bool) (cfg : Config) (m : StatesMap)
    (t : TickIn) :
    mapGet (checkFunc l cfg m t).1 cfg.Name = (checkFunc l cfg m t).2.2 := by
  cases ht : t.failErr with
  | none =>
    rw [checkFunc_ok_eq l cfg m t ht]
    exact mapGet_mapSet_self m cfg.Name _
  | some msg =>
    by_cases hp : (mapGet m cfg.Name).isFailure = true
    · rw [checkFunc_fail_repeat_eq l cfg m t msg ht hp]
      exact mapGet_mapSet_self m cfg.Name _
    · rw [checkFunc_fail_fresh_eq l cfg m t msg ht (bool_not_true hp)]
      exact mapGet_mapSet_self m cfg.Name _

theorem storedAfter_nil (l : Bool) (cfg : Config) (m : StatesMap) :
    storedAfter l cfg m [] = mapGet m cfg.Name := rfl

theorem storedAfter_cons (l : Bool) (cfg : Config) (m : StatesMap)
    (t : TickIn) (ts : List TickIn) :
    storedAfter l cfg m (t :: ts) =
      storedAfter l cfg (checkFunc l cfg m t).1 ts := rfl

theorem runTicks_append (l : Bool) (cfg : Config) (a : List TickIn) :
    ∀ (b : List TickIn) (m : StatesMap),
      runTicks l cfg m (a ++ b) =
        ((runTicks l cfg (runTicks l cfg m a).1 b).1,
         (runTicks l cfg m a).2 ++ (runTicks l cfg (runTicks l cfg m a).1 b).2) := by
  induction a with
  | nil => intro b m; simp [runTicks]
  | cons t ts ih => intro b m; simp [runTicks, ih]

theorem storedAfter_append (l : Bool) (cfg : Config) (a b : List TickIn)
    (m : StatesMap) :
    storedAfter l cfg m (a ++ b) =
      storedAfter l cfg (runTicks l cfg m a).1 b := by
  simp [storedAfter, runTicks_append]

theorem checkFunc_entry_ok (l : Bool) (cfg : Config) (m : StatesMap)
    (t : TickIn) (ht : t.failErr = none) :
    (checkFunc l cfg m t).2.2 = initialEntry cfg t := by
  rw [checkFunc_ok_eq l cfg m t ht]

theorem checkFunc_entry_fresh_fields (l : Bool) (cfg : Config)
    (m : StatesMap) (t : TickIn) (msg : String) (ht : t.failErr = some msg)
    (hp : (mapGet m cfg.Name).isFailure = false) :
    (checkFunc l cfg m t).2.2.isFailure = true ∧
    (checkFunc l cfg m t).2.2.ContiguousFailures =
      (mapGet m cfg.Name).ContiguousFailures + 1 ∧
    (checkFunc l cfg m t).2.2.TimeOfFirstFailure = t.now := by
  rw [checkFunc_fail_fresh_eq l cfg m t msg ht hp]
  exact ⟨rfl, rfl, rfl⟩

theorem checkFunc_entry_repeat_fields (l : Bool) (cfg : Config)
    (m : StatesMap) (t : TickIn) (msg : String) (ht : t.failErr = some msg)
    (hp : (mapGet m cfg.Name).isFailure = true) :
    (checkFunc l cfg m t).2.2.isFailure = true ∧
    (checkFunc l cfg m t).2.2.ContiguousFailures =
      (mapGet m cfg.Name).ContiguousFailures + 1 ∧
    (checkFunc l cfg m t).2.2.TimeOfFirstFailure =
      (mapGet m cfg.Name).TimeOfFirstFailure := by
  rw [checkFunc_fail_repeat_eq l cfg m t msg ht hp]
  exact ⟨rfl, rfl, rfl⟩

theorem checkFunc_entry_inv (l : Bool) (cfg : Config) (m : StatesMap)
    (t : TickIn)
    (h1 : (mapGet m cfg.Name).isFailure = true →
      1 ≤ (mapGet m cfg.Name).ContiguousFailures)
    (h2 : (mapGet m cfg.Name).isFailure = false →
      (mapGet m cfg.Name).ContiguousFailures = 0 ∧
      (mapGet m cfg.Name).TimeOfFirstFailure = 0) :
    ((checkFunc l cfg m t).2.2.isFailure = true →
      1 ≤ (checkFunc l cfg m t).2.2.ContiguousFailures) ∧
    ((checkFunc l cfg m t).2.2.isFailure = false →
      (checkFunc l cfg m t).2.2.ContiguousFailures = 0 ∧
      (checkFunc l cfg m t).2.2.TimeOfFirstFailure = 0) := by
  cases ht : t.failErr with
  | none =>
    rw [checkFunc_entry_ok l cfg m t ht]
    refine ⟨fun hc => ?_, fun _ => ⟨rfl, rfl⟩⟩
    rw [initialEntry_not_failure] at hc
    cases hc
  | some msg =>
    by_cases hp : (mapGet m cfg.Name).isFailure = true
    · obtain ⟨hf, hcf, _⟩ := checkFunc_entry_repeat_fields l cfg m t msg ht hp
      refine ⟨fun _ => ?_, fun hc => ?_⟩
      · rw [hcf]
        have := h1 hp
        omega
      · rw [hf] at hc
        cases hc
    · obtain ⟨hf, hcf, _⟩ :=
        checkFunc_entry_fresh_fields l cfg m t msg ht (bool_not_true hp)
      refine ⟨fun _ => ?_, fun hc => ?_⟩
      · rw [hcf, (h2 (bool_not_true hp)).1]
        omega
      · rw [hf] at hc
        cases hc

theorem storedAfter_inv (l : Bool) (cfg : Config) :
    ∀ (ts : List TickIn) (m : StatesMap),
      ((mapGet m cfg.Name).isFailure = true →
        1 ≤ (mapGet m cfg.Name).ContiguousFailures) →
      ((mapGet m cfg.Name).isFailure = false →
        (mapGet m cfg.Name).ContiguousFailures = 0 ∧
        (mapGet m cfg.Name).TimeOfFirstFailure = 0) →
      (((storedAfter l cfg m ts).isFailure = true →
          1 ≤ (storedAfter l cfg m ts).ContiguousFailures) ∧
       ((storedAfter l cfg m ts).isFailure = false →
          (storedAfter l cfg m ts).ContiguousFailures = 0 ∧
          (storedAfter l cfg m ts).TimeOfFirstFailure = 0)) := by
  intro ts
  induction ts with
  | nil => intro m h1 h2; exact ⟨h1, h2⟩
  | cons t ts ih =>
    intro m h1 h2
    rw [storedAfter_cons]
    have hstep := checkFunc_entry_inv l cfg m t h1 h2
    have hmg := mapGet_checkFunc l cfg m t
    exact ih (checkFunc l cfg m t).1 (hmg ▸ hstep.1) (hmg ▸ hstep.2)

theorem storedAfter_all_fail (l : Bool) (cfg : Config) :
    ∀ (ts : List TickIn) (m : StatesMap),
      (mapGet m cfg.Name).isFailure = true →
      ts.all (fun u => u.failErr.isSome) = true →
      (storedAfter l cfg m ts).ContiguousFailures =
        (mapGet m cfg.Name).ContiguousFailures + ts.length ∧
      (storedAfter l cfg m ts).TimeOfFirstFailure =
        (mapGet m cfg.Name).TimeOfFirstFailure ∧
      (storedAfter l cfg m ts).isFailure = true := by
  intro ts
  induction ts with
  | nil => intro m hf _; exact ⟨by simp [storedAfter_nil], rfl, hf⟩
  | cons t ts ih =>
    intro m hf hall
    simp only [List.all_cons, Bool.and_eq_true] at hall
    obtain ⟨msg, hmsg⟩ := Option.isSome_iff_exists.mp hall.1
    obtain ⟨hef, hecf, hetoff⟩ :=
      checkFunc_entry_repeat_fields l cfg m t msg hmsg hf
    have hmg := mapGet_checkFunc l cfg m t
    rw [storedAfter_cons]
    have hrec := ih (checkFunc l cfg m t).1 (by rw [hmg]; exact hef) hall.2
    rw [hmg, hecf, hetoff] at hrec
    refine ⟨?_, hrec.2.1, hrec.2.2⟩
    rw [hrec.1]
    simp only [List.length_cons]
    push_cast
    omega

theorem storedAfter_streak_from_ok (l : Bool) (cfg : Config) (t : TickIn)
    (ts : List TickIn) (m : StatesMap)
    (hok : (mapGet m cfg.Name).isFailure = false)
    (hcf0 : (mapGet m cfg.Name).ContiguousFailures = 0)
    (ht : t.failErr.isSome = true)
    (hall : ts.all (fun u => u.failErr.isSome) = true) :
    (storedAfter l cfg m (t :: ts)).ContiguousFailures =
      ((t :: ts).length : Int) ∧
    (storedAfter l cfg m (t :: ts)).TimeOfFirstFailure = t.now ∧
    (storedAfter l cfg m (t :: ts)).isFailure = true := by
  obtain ⟨msg, hmsg⟩ := Option.isSome_iff_exists.mp ht
  obtain ⟨hef, hecf, hetoff⟩ :=
    checkFunc_entry_fresh_fields l cfg m t msg hmsg hok
  have hmg := mapGet_checkFunc l cfg m t
  rw [storedAfter_cons]
  have hrec := storedAfter_all_fail l cfg ts (checkFunc l cfg m t).1
    (by rw [hmg]; exact hef) hall
  rw [hmg, hecf, hetoff] at hrec
  refine ⟨?_, hrec.2.1, hrec.2.2⟩
  rw [hrec.1, hcf0]
  simp only [List.length_cons]
  push_cast
  omega

/-! ## Claims -/

/-- C2: `Failed()` returns true iff some state in the store has
`fatal = true` and `status = "failed"`; in particular it is false on an
empty store and false when every failing state is non-fatal.  (The
`Nodup` hypothesis says the association list represents a Go map: one
entry per key.) -/
theorem C2_failed_iff_exists_fatal_failure (h : Health)
    (hnd : (h.states.map Prod.fst).Nodup) :
    (h.Failed = true ↔
      ∃ p ∈ h.states, p.2.Fatal = true ∧ p.2.Status = "failed") ∧
    (h.states = [] → h.Failed = false) ∧
    ((∀ p ∈ h.states, p.2.Status = "failed" → p.2.Fatal = false) →
      h.Failed = false) := by
  have hrev := copyStates_eq_reverse h.states hnd
  have hiff : h.Failed = true ↔
      ∃ p ∈ h.states, p.2.Fatal = true ∧ p.2.Status = "failed" := by
    rw [Health.Failed, Health.safeGetStates, hrev, List.any_eq_true]
    constructor
    · rintro ⟨p, hp, hsat⟩
      simp only [Bool.and_eq_true] at hsat
      exact ⟨p, List.mem_reverse.mp hp, hsat.1,
        by simpa [State.isFailure] using hsat.2⟩
    · rintro ⟨p, hp, hf, hs⟩
      exact ⟨p, List.mem_reverse.mpr hp,
        by simp [State.isFailure, hf, hs]⟩
  refine ⟨hiff, ?_, ?_⟩
  · intro h0
    simp [Health.Failed, Health.safeGetStates, h0, copyStates]
  · intro hall
    cases hF : h.Failed
    · rfl
    · obtain ⟨p, hp, hf, hs⟩ := hiff.mp hF
      have hnf := hall p hp hs
      rw [hf] at hnf
      cases hnf

/-- Witness for C2 at a concrete instance: one non-fatal failing state
in the store yields `Failed() = false`. -/
theorem C2_witness : hSampleNonFatal.Failed = false := by
  have hmain := C2_failed_iff_exists_fatal_failure hSampleNonFatal (by decide)
  exact hmain.2.2 (by decide)

/-- C3: `AddCheck`/`AddChecks` fail (with `ErrNoAddCfgWhenActive`) iff
the instance is active, and otherwise append (an empty `AddChecks`
being a successful no-op leaving the configs unchanged); `Start`
returns `ErrAlreadyRunning` iff active and returns no other error;
`Stop` returns `ErrAlreadyStopped` iff inactive and no other error;
the exact successful results are given, so no other error is ever
produced. -/
theorem C3_lifecycle_error_characterization (h : Health)
    (c : Option Config) (cs : List (Option Config)) (e : HErr) :
    (h.active = true →
      h.AddCheck c = .error .errNoAddCfgWhenActive ∧
      h.AddChecks cs = .error .errNoAddCfgWhenActive ∧
      h.Start = some (.error .errAlreadyRunning) ∧
      h.Stop = .ok { h with runners := [], states := [] }) ∧
    (h.active = false →
      h.AddCheck c = .ok { h with configs := h.configs ++ [c] } ∧
      h.AddChecks cs = .ok { h with configs := h.configs ++ cs } ∧
      h.AddChecks [] = .ok h ∧
      h.Start ≠ some (.error e) ∧
      h.Stop = .error .errAlreadyStopped) := by
  refine ⟨?_, ?_⟩
  · intro hA
    refine ⟨?_, ?_, ?_, ?_⟩ <;>
      simp [Health.AddCheck, Health.AddChecks, Health.Start, Health.Stop, hA]
  · intro hA
    refine ⟨?_, ?_, ?_, start_inactive_not_error h e hA, ?_⟩
    · simp [Health.AddCheck, hA]
    · simp [Health.AddChecks, hA]
    · obtain ⟨lst, act, cfg0, st0, rn0⟩ := h
      simp only at hA
      subst hA
      simp [Health.AddChecks]
    · simp [Health.Stop, hA]

/-- Witness for C3 at concrete instances: an inactive `New()` accepts a
check and an empty `AddChecks`, and its `Stop` fails with
`ErrAlreadyStopped`; an active instance refuses `AddCheck` with
`ErrNoAddCfgWhenActive`. -/
theorem C3_witness :
    Health.New.AddCheck (some cfgFoo) =
      .ok { Health.New with configs := [some cfgFoo] } ∧
    Health.New.AddChecks [] = .ok Health.New ∧
    Health.New.Stop = .error .errAlreadyStopped ∧
    Health.AddCheck { Health.New with active := true } (some cfgFoo) =
      .error .errNoAddCfgWhenActive := by
  have h1 := C3_lifecycle_error_characterization Health.New (some cfgFoo) []
    HErr.errAlreadyRunning
  have h2 := C3_lifecycle_error_characterization
    { Health.New with active := true } (some cfgFoo) [] HErr.errAlreadyRunning
  have h1f := h1.2 rfl
  exact ⟨h1f.1, h1f.2.2.1, h1f.2.2.2.2, (h2.1 rfl).1⟩

/-- C9: `Start()` on an inactive instance with zero configurations
returns success without transitioning state — the very same instance is
returned, so the active flag stays false, no runner is recorded, and a
later `AddCheck` still succeeds. -/
theorem C9_empty_start_noop (h : Health) (c : Option Config)
    (hA : h.active = false) (hc : h.configs = []) :
    h.Start = some (.ok h) ∧ h.active = false ∧
    h.AddCheck c = .ok { h with configs := h.configs ++ [c] } := by
  refine ⟨?_, hA, ?_⟩
  · simp [Health.Start, hA, hc]
  · simp [Health.AddCheck, hA]

/-- Witness for C9 at `New()`. -/
theorem C9_witness :
    Health.New.Start = some (.ok Health.New) ∧
    (Health.New.AddCheck (some cfgFoo)).isOk = true := by
  have hmain := C9_empty_start_noop Health.New (some cfgFoo) rfl rfl
  refine ⟨hmain.1, ?_⟩
  rw [hmain.2.2]
  rfl

/-- C10: `AddCheck` does not validate its argument: a nil config is
accepted and appended on an inactive instance, and the following
`Start()` dereferences the nil pointer (`c.Name`, `c.Interval`) with no
guard — modelled by `Start` returning `none` (panic), so `Start` is not
total on what `AddCheck` accepts. -/
theorem C10_addCheck_nil_accepted_start_panics (h : Health)
    (hA : h.active = false) :
    h.AddCheck none = .ok { h with configs := h.configs ++ [none] } ∧
    Health.Start { h with configs := h.configs ++ [none] } = none := by
  constructor
  · simp [Health.AddCheck, hA]
  · simp [Health.Start, hA, startRunners_append_none, Nat.lt_one_iff]

/-- Witness for C10 at `New()`. -/
theorem C10_witness :
    Health.New.AddCheck none =
      .ok { Health.New with configs := Health.New.configs ++ [none] } ∧
    Health.Start { Health.New with configs := Health.New.configs ++ [none] } =
      none :=
  C10_addCheck_nil_accepted_start_panics Health.New rfl

/-- C1 (code bug): `Stop()` never clears the active flag (`health.go`
writes `h.active.setTrue()` in `Start` but `Stop` has no
`h.active.setFalse()`), so after a successful `Stop` the instance is
still active: a subsequent `Start` fails with `ErrAlreadyRunning`, a
subsequent `AddCheck` fails with `ErrNoAddCfgWhenActive`, and a second
`Stop` succeeds instead of failing with `ErrAlreadyStopped` — contra
the claim (and contra the source's own comments tying `active` to
"whether the healthcheck is actively running"). -/
theorem C1_stop_leaves_instance_active :
    Health.New.AddCheck (some cfgFoo) = .ok hCfgFoo ∧
    hCfgFoo.Start = some (.ok hRunning) ∧
    hRunning.Stop = .ok hStopped ∧
    hStopped.active = true ∧
    hStopped.Start = some (.error .errAlreadyRunning) ∧
    hStopped.AddCheck (some cfgFoo) = .error .errNoAddCfgWhenActive ∧
    hStopped.Stop ≠ .error .errAlreadyStopped := by
  refine ⟨rfl, rfl, rfl, rfl, rfl, rfl, fun hcontra => ?_⟩
  have hok : hStopped.Stop = .ok { hStopped with runners := [], states := [] } :=
    rfl
  rw [hok] at hcontra
  cases hcontra

theorem checkFunc_Name (l : Bool) (cfg : Config) (m : StatesMap)
    (t : TickIn) : (checkFunc l cfg m t).2.2.Name = cfg.Name := by
  have h := (hsl_preserves l m (prospectiveEntry cfg t) t.now).1
  have h2 : (prospectiveEntry cfg t).Name = cfg.Name := by
    cases hx : t.failErr <;>
      simp [prospectiveEntry, hx, failedEntry_Name, initialEntry_Name]
  exact h.trans h2

theorem checkFunc_map_eq (l : Bool) (cfg : Config) (m : StatesMap)
    (t : TickIn) :
    (checkFunc l cfg m t).1 = mapSet m cfg.Name (checkFunc l cfg m t).2.2 := by
  rw [show (checkFunc l cfg m t).1 =
      mapSet m (checkFunc l cfg m t).2.2.Name (checkFunc l cfg m t).2.2 from
      rfl, checkFunc_Name]

theorem checkFunc_entry_fail_status (l : Bool) (cfg : Config)
    (m : StatesMap) (t : TickIn) (msg : String)
    (ht : t.failErr = some msg) :
    (checkFunc l cfg m t).2.2.Status = "failed" := by
  by_cases hp : (mapGet m cfg.Name).isFailure = true
  · rw [checkFunc_fail_repeat_eq l cfg m t msg ht hp]
    rfl
  · rw [checkFunc_fail_fresh_eq l cfg m t msg ht (bool_not_true hp)]
    rfl

/-- C4: over any run of one check's worker from the empty store, the
stored `contiguous_failures` is 0 iff the stored status is `"ok"`; the
stored `time_of_first_failure` is the zero timestamp whenever the status
is `"ok"`; each failing tick stores the previous count plus one; on a
repeat failure the first-failure time is carried forward unchanged and
on a fresh failure it is set to the tick's time; and after `k`
consecutive failing ticks from the start the count is `k` and the
first-failure time is the first tick's time. -/
theorem C4_contiguous_failures_bookkeeping (listener : Bool) (cfg : Config)
    (a : List TickIn) (t : TickIn) :
    ((storedAfter listener cfg [] (a ++ [t])).ContiguousFailures = 0 ↔
      (storedAfter listener cfg [] (a ++ [t])).Status = "ok") ∧
    ((storedAfter listener cfg [] (a ++ [t])).Status = "ok" →
      (storedAfter listener cfg [] (a ++ [t])).TimeOfFirstFailure = 0) ∧
    (t.failErr.isSome = true →
      (storedAfter listener cfg [] (a ++ [t])).ContiguousFailures =
        (storedAfter listener cfg [] a).ContiguousFailures + 1) ∧
    (t.failErr.isSome = true →
      (storedAfter listener cfg [] a).isFailure = true →
      (storedAfter listener cfg [] (a ++ [t])).TimeOfFirstFailure =
        (storedAfter listener cfg [] a).TimeOfFirstFailure) ∧
    (t.failErr.isSome = true →
      (storedAfter listener cfg [] a).isFailure = false →
      (storedAfter listener cfg [] (a ++ [t])).TimeOfFirstFailure = t.now) ∧
    ((a ++ [t]).all (fun u => u.failErr.isSome) = true →
      (storedAfter listener cfg [] (a ++ [t])).ContiguousFailures =
        ((a ++ [t]).length : Int) ∧
      (storedAfter listener cfg [] (a ++ [t])).TimeOfFirstFailure =
        ((a ++ [t]).headD t).now) := by
  have hinv := storedAfter_inv listener cfg a []
    (fun hc => by cases hc) (fun _ => ⟨rfl, rfl⟩)
  have hge : 0 ≤ (storedAfter listener cfg [] a).ContiguousFailures := by
    by_cases hpf : (storedAfter listener cfg [] a).isFailure = true
    · have := hinv.1 hpf
      omega
    · have := (hinv.2 (bool_not_true hpf)).1
      omega
  have hSa : storedAfter listener cfg [] (a ++ [t]) =
      (checkFunc listener cfg (runTicks listener cfg [] a).1 t).2.2 := by
    rw [storedAfter_append, storedAfter_cons, storedAfter_nil,
      mapGet_checkFunc]
  have hInc : t.failErr.isSome = true →
      (storedAfter listener cfg [] (a ++ [t])).ContiguousFailures =
        (storedAfter listener cfg [] a).ContiguousFailures + 1 := by
    intro htf
    obtain ⟨msg, hmsg⟩ := Option.isSome_iff_exists.mp htf
    by_cases hpf : (storedAfter listener cfg [] a).isFailure = true
    · rw [hSa]
      exact (checkFunc_entry_repeat_fields listener cfg _ t msg hmsg hpf).2.1
    · rw [hSa]
      exact (checkFunc_entry_fresh_fields listener cfg _ t msg hmsg
        (bool_not_true hpf)).2.1
  have hFailStatus : t.failErr.isSome = true →
      (storedAfter listener cfg [] (a ++ [t])).Status = "failed" := by
    intro htf
    obtain ⟨msg, hmsg⟩ := Option.isSome_iff_exists.mp htf
    rw [hSa]
    exact checkFunc_entry_fail_status listener cfg _ t msg hmsg
  have hIff : (storedAfter listener cfg [] (a ++ [t])).ContiguousFailures = 0 ↔
      (storedAfter listener cfg [] (a ++ [t])).Status = "ok" := by
    cases ht : t.failErr with
    | none =>
      rw [hSa, checkFunc_entry_ok listener cfg _ t ht]
      simp [initialEntry]
    | some msg =>
      have htf : t.failErr.isSome = true := by rw [ht]; rfl
      rw [hFailStatus htf, hInc htf]
      constructor
      · intro hc
        exact absurd hc (by omega)
      · intro hc
        exact absurd hc (by decide)
  have hOkToff : (storedAfter listener cfg [] (a ++ [t])).Status = "ok" →
      (storedAfter listener cfg [] (a ++ [t])).TimeOfFirstFailure = 0 := by
    cases ht : t.failErr with
    | none =>
      intro _
      rw [hSa, checkFunc_entry_ok listener cfg _ t ht]
      rfl
    | some msg =>
      intro hstat
      have htf : t.failErr.isSome = true := by rw [ht]; rfl
      rw [hFailStatus htf] at hstat
      exact absurd hstat (by decide)
  have hCarry : t.failErr.isSome = true →
      (storedAfter listener cfg [] a).isFailure = true →
      (storedAfter listener cfg [] (a ++ [t])).TimeOfFirstFailure =
        (storedAfter listener cfg [] a).TimeOfFirstFailure := by
    intro htf hpf
    obtain ⟨msg, hmsg⟩ := Option.isSome_iff_exists.mp htf
    rw [hSa]
    exact (checkFunc_entry_repeat_fields listener cfg _ t msg hmsg hpf).2.2
  have hSet : t.failErr.isSome = true →
      (storedAfter listener cfg [] a).isFailure = false →
      (storedAfter listener cfg [] (a ++ [t])).TimeOfFirstFailure = t.now := by
    intro htf hpf
    obtain ⟨msg, hmsg⟩ := Option.isSome_iff_exists.mp htf
    rw [hSa]
    exact (checkFunc_entry_fresh_fields listener cfg _ t msg hmsg hpf).2.2
  have hStreak : (a ++ [t]).all (fun u => u.failErr.isSome) = true →
      (storedAfter listener cfg [] (a ++ [t])).ContiguousFailures =
        ((a ++ [t]).length : Int) ∧
      (storedAfter listener cfg [] (a ++ [t])).TimeOfFirstFailure =
        ((a ++ [t]).headD t).now := by
    intro hall
    cases a with
    | nil =>
      simp only [List.nil_append, List.all_cons, List.all_nil,
        Bool.and_eq_true] at hall
      have hs := storedAfter_streak_from_ok listener cfg t [] [] rfl rfl
        hall.1 rfl
      exact ⟨hs.1, hs.2.1⟩
    | cons x a2 =>
      simp only [List.cons_append, List.all_cons, Bool.and_eq_true] at hall
      have hs := storedAfter_streak_from_ok listener cfg x (a2 ++ [t]) []
        rfl rfl hall.1 hall.2
      exact ⟨hs.1, hs.2.1⟩
  exact ⟨hIff, hOkToff, hInc, hCarry, hSet, hStreak⟩

/-- Witness for C4 at a concrete two-failure run: the stored count is 2
and the stored first-failure time is the first tick's timestamp. -/
theorem C4_witness :
    (storedAfter true cfgFoo []
      ([⟨none, some "x", 3⟩] ++ [⟨none, some "y", 8⟩])).ContiguousFailures = 2 ∧
    (storedAfter true cfgFoo []
      ([⟨none, some "x", 3⟩] ++ [⟨none, some "y", 8⟩])).TimeOfFirstFailure = 3 := by
  have hmain := C4_contiguous_failures_bookkeeping true cfgFoo
    [⟨none, some "x", 3⟩] ⟨none, some "y", 8⟩
  have h6 := hmain.2.2.2.2.2 (by decide)
  exact ⟨h6.1, h6.2⟩

/-- C5: with a status listener installed, one tick after any history
dispatches `HealthCheckFailed` exactly once iff it is a fresh failure
(previous state ok or absent), dispatches `HealthCheckRecovered`
exactly once iff it is a recovery (previous state failed), and
dispatches nothing on a repeat-status tick; the recovery callback
receives the previous streak length and the elapsed time, in fractional
seconds, between the first failing tick of the streak and the current
successful tick. -/
theorem C5_listener_dispatch_per_transition (cfg : Config)
    (b c : List TickIn) (t : TickIn) :
    (t.failErr.isSome = true →
      (storedAfter true cfg [] (b ++ c)).isFailure = false →
      (checkFunc true cfg (runTicks true cfg [] (b ++ c)).1 t).2.1 =
        [Event.healthCheckFailed (prospectiveEntry cfg t)]) ∧
    (t.failErr.isSome = true →
      (storedAfter true cfg [] (b ++ c)).isFailure = true →
      (checkFunc true cfg (runTicks true cfg [] (b ++ c)).1 t).2.1 = []) ∧
    (t.failErr = none →
      (storedAfter true cfg [] (b ++ c)).isFailure = false →
      (checkFunc true cfg (runTicks true cfg [] (b ++ c)).1 t).2.1 = []) ∧
    (t.failErr = none →
      (storedAfter true cfg [] (b ++ c)).isFailure = true →
      (checkFunc true cfg (runTicks true cfg [] (b ++ c)).1 t).2.1 =
        [Event.healthCheckRecovered (initialEntry cfg t)
          (storedAfter true cfg [] (b ++ c)).ContiguousFailures
          (durationSeconds
            (t.now -
              (storedAfter true cfg [] (b ++ c)).TimeOfFirstFailure))]) ∧
    (t.failErr = none → c ≠ [] →
      c.all (fun u => u.failErr.isSome) = true →
      (storedAfter true cfg [] b).isFailure = false →
      (checkFunc true cfg (runTicks true cfg [] (b ++ c)).1 t).2.1 =
        [Event.healthCheckRecovered (initialEntry cfg t) (c.length : Int)
          (durationSeconds (t.now - (c.headD t).now))]) := by
  have hFreshEv : t.failErr.isSome = true →
      (storedAfter true cfg [] (b ++ c)).isFailure = false →
      (checkFunc true cfg (runTicks true cfg [] (b ++ c)).1 t).2.1 =
        [Event.healthCheckFailed (prospectiveEntry cfg t)] := by
    intro htf hpf
    obtain ⟨msg, hmsg⟩ := Option.isSome_iff_exists.mp htf
    rw [checkFunc_fail_fresh_eq true cfg _ t msg hmsg hpf,
      prospectiveEntry_fail cfg t msg hmsg]
    rfl
  have hRepeatEv : t.failErr.isSome = true →
      (storedAfter true cfg [] (b ++ c)).isFailure = true →
      (checkFunc true cfg (runTicks true cfg [] (b ++ c)).1 t).2.1 = [] := by
    intro htf hpf
    obtain ⟨msg, hmsg⟩ := Option.isSome_iff_exists.mp htf
    rw [checkFunc_fail_repeat_eq true cfg _ t msg hmsg hpf]
  have hOkEv : t.failErr = none →
      (storedAfter true cfg [] (b ++ c)).isFailure = false →
      (checkFunc true cfg (runTicks true cfg [] (b ++ c)).1 t).2.1 = [] := by
    intro ht hpf
    have hpf2 : (mapGet (runTicks true cfg [] (b ++ c)).1 cfg.Name).isFailure
        = false := hpf
    rw [checkFunc_ok_eq true cfg _ t ht]
    simp [hpf2]
  have hRecEv : t.failErr = none →
      (storedAfter true cfg [] (b ++ c)).isFailure = true →
      (checkFunc true cfg (runTicks true cfg [] (b ++ c)).1 t).2.1 =
        [Event.healthCheckRecovered (initialEntry cfg t)
          (storedAfter true cfg [] (b ++ c)).ContiguousFailures
          (durationSeconds
            (t.now -
              (storedAfter true cfg [] (b ++ c)).TimeOfFirstFailure))] := by
    intro ht hpf
    have hpf2 : (mapGet (runTicks true cfg [] (b ++ c)).1 cfg.Name).isFailure
        = true := hpf
    rw [checkFunc_ok_eq true cfg _ t ht]
    simp only [hpf2, if_true]
    exact rfl
  refine ⟨hFreshEv, hRepeatEv, hOkEv, hRecEv, ?_⟩
  intro ht hc hcall hbok
  cases c with
  | nil => exact absurd rfl hc
  | cons y c2 =>
    simp only [List.all_cons, Bool.and_eq_true] at hcall
    have hb0 : (mapGet (runTicks true cfg [] b).1 cfg.Name).ContiguousFailures
        = 0 := by
      have hinvb := storedAfter_inv true cfg b []
        (fun hx => by cases hx) (fun _ => ⟨rfl, rfl⟩)
      exact (hinvb.2 hbok).1
    have hs := storedAfter_streak_from_ok true cfg y c2
      (runTicks true cfg [] b).1 hbok hb0 hcall.1 hcall.2
    have happ : storedAfter true cfg [] (b ++ (y :: c2)) =
        storedAfter true cfg (runTicks true cfg [] b).1 (y :: c2) :=
      storedAfter_append true cfg b (y :: c2) []
    have hprevfail :
        (storedAfter true cfg [] (b ++ y :: c2)).isFailure = true := by
      rw [happ]
      exact hs.2.2
    have h1 : (storedAfter true cfg [] (b ++ y :: c2)).ContiguousFailures =
        ((y :: c2).length : Int) := by
      rw [happ]
      exact hs.1
    have h2 : (storedAfter true cfg [] (b ++ y :: c2)).TimeOfFirstFailure =
        y.now := by
      rw [happ]
      exact hs.2.1
    rw [hRecEv ht hprevfail, h1, h2]
    rfl

/-- Witness for C5 at a concrete run: two failing ticks then a
successful one dispatch a recovery event carrying streak length 2 and
the elapsed seconds since the first failing tick. -/
theorem C5_witness :
    (checkFunc true cfgBar
      (runTicks true cfgBar []
        ([] ++ [⟨none, some "a", 1⟩, ⟨none, some "b", 2⟩])).1
      ⟨none, none, 5⟩).2.1 =
    [Event.healthCheckRecovered (initialEntry cfgBar ⟨none, none, 5⟩) 2
      (durationSeconds (5 - 1))] := by
  have hmain := C5_listener_dispatch_per_transition cfgBar []
    [⟨none, some "a", 1⟩, ⟨none, some "b", 2⟩] ⟨none, none, 5⟩
  exact hmain.2.2.2.2 rfl (by decide) (by decide) rfl

/-- C6: on every tick the recorded `State` carries the config's name
and fatal flag, the checker's details payload and the tick's time; its
status is `"ok"` with empty error text when the checker returned no
failure reason, and `"failed"` with the checker's reason otherwise;
the entry is stored into the map in both cases — a checker failure is
recorded as state, never surfaced as a scheduler error (`checkFunc` is
total and produces no `HErr`). -/
theorem C6_recorded_state_fields (listener : Bool) (cfg : Config)
    (m : StatesMap) (t : TickIn) (msg : String) :
    (checkFunc listener cfg m t).1 =
      mapSet m cfg.Name (checkFunc listener cfg m t).2.2 ∧
    (checkFunc listener cfg m t).2.2.Name = cfg.Name ∧
    (checkFunc listener cfg m t).2.2.Fatal = cfg.Fatal ∧
    (checkFunc listener cfg m t).2.2.Details = t.data ∧
    (checkFunc listener cfg m t).2.2.CheckTime = t.now ∧
    (t.failErr = none →
      (checkFunc listener cfg m t).2.2.Status = "ok" ∧
      (checkFunc listener cfg m t).2.2.Err = "") ∧
    (t.failErr = some msg →
      (checkFunc listener cfg m t).2.2.Status = "failed" ∧
      (checkFunc listener cfg m t).2.2.Err = msg) := by
  have hpres := hsl_preserves listener m (prospectiveEntry cfg t) t.now
  have hpfields : (prospectiveEntry cfg t).Fatal = cfg.Fatal ∧
      (prospectiveEntry cfg t).Details = t.data ∧
      (prospectiveEntry cfg t).CheckTime = t.now := by
    cases hx : t.failErr <;>
      simp [prospectiveEntry, hx, failedEntry, initialEntry]
  refine ⟨checkFunc_map_eq listener cfg m t, checkFunc_Name listener cfg m t,
    hpres.2.2.2.1.trans hpfields.1, hpres.2.2.2.2.1.trans hpfields.2.1,
    hpres.2.2.2.2.2.trans hpfields.2.2, ?_, ?_⟩
  · intro ht
    rw [checkFunc_entry_ok listener cfg m t ht]
    exact ⟨rfl, rfl⟩
  · intro ht
    refine ⟨checkFunc_entry_fail_status listener cfg m t msg ht, ?_⟩
    have herr : (prospectiveEntry cfg t).Err = msg := by
      simp [prospectiveEntry, ht, failedEntry]
    exact hpres.2.2.1.trans herr

/-- Witness for C6 at a concrete failing tick. -/
theorem C6_witness :
    (checkFunc true cfgBar [] ⟨some "pay", some "boom", 7⟩).2.2.Status =
      "failed" ∧
    (checkFunc true cfgBar [] ⟨some "pay", some "boom", 7⟩).2.2.Err =
      "boom" ∧
    (checkFunc true cfgBar [] ⟨some "pay", some "boom", 7⟩).2.2.Details =
      some "pay" := by
  have hmain := C6_recorded_state_fields true cfgBar []
    ⟨some "pay", some "boom", 7⟩ "boom"
  have hf := hmain.2.2.2.2.2.2 rfl
  exact ⟨hf.1, hf.2, hmain.2.2.2.1⟩

theorem lookup_eq_none_of_not_mem (k : String) :
    ∀ m : StatesMap, k ∉ m.map Prod.fst → m.lookup k = none := by
  intro m
  induction m with
  | nil => intro _; rfl
  | cons p t ih =>
    intro h
    obtain ⟨p1, p2⟩ := p
    simp only [List.map_cons, List.mem_cons] at h
    push_neg at h
    have hbeq : (k == p1) = false := beq_eq_false_iff_ne.mpr h.1
    simp [List.lookup, hbeq, ih h.2]

theorem lookup_append_cases (k : String) :
    ∀ l1 l2 : StatesMap,
      (l1 ++ l2).lookup k =
        (match l1.lookup k with
         | some v => some v
         | none => l2.lookup k) := by
  intro l1
  induction l1 with
  | nil => intro l2; rfl
  | cons p t ih =>
    intro l2
    obtain ⟨p1, p2⟩ := p
    cases hab : (k == p1) <;> simp [List.lookup, hab, ih l2]

theorem lookup_reverse_eq :
    ∀ m : StatesMap, (m.map Prod.fst).Nodup → ∀ k : String,
      m.reverse.lookup k = m.lookup k := by
  intro m
  induction m with
  | nil => intro _ k; rfl
  | cons p t ih =>
    intro hnd k
    obtain ⟨p1, p2⟩ := p
    have hnd1 : (p1 :: t.map Prod.fst).Nodup := by simpa using hnd
    rw [List.reverse_cons, lookup_append_cases]
    by_cases hk : k = p1
    · subst hk
      have hmem : k ∉ t.reverse.map Prod.fst := by
        have := (List.nodup_cons.mp hnd1).1
        simpa using this
      rw [lookup_eq_none_of_not_mem k t.reverse hmem]
      simp [List.lookup]
    · have hbeq : (k == p1) = false := beq_eq_false_iff_ne.mpr hk
      rw [ih (List.nodup_cons.mp hnd1).2 k]
      cases hx : t.lookup k <;> simp [List.lookup, hbeq, hx]

theorem mapGet_copyStates (m : StatesMap)
    (hnd : (m.map Prod.fst).Nodup) (k : String) :
    mapGet (copyStates m) k = mapGet m k := by
  rw [copyStates_eq_reverse m hnd, mapGet, mapGet, lookup_reverse_eq m hnd k]

theorem mutateRefAll_data_ne (r x : Nat) (hx : x ≠ r) :
    ∀ (mus : List MapMut) (hp : MapHeap),
      (mutateRefAll hp r mus).data x = hp.data x := by
  intro mus
  induction mus with
  | nil => intro hp; rfl
  | cons mu mus ih =>
    intro hp
    rw [show mutateRefAll hp r (mu :: mus) =
      mutateRefAll (mutateRef hp r mu) r mus from rfl, ih]
    simp [mutateRef, writeMapRef, hx]

theorem stateOpH_spec (hp : MapHeap) (store : Nat) :
    (StateOpH hp store).1.1 = hp.next ∧
    (StateOpH hp store).2.next = hp.next + 2 ∧
    (StateOpH hp store).2.data hp.next = copyStates (hp.data store) ∧
    (∀ x, x ≠ hp.next → x ≠ hp.next + 1 →
      (StateOpH hp store).2.data x = hp.data x) ∧
    (StateOpH hp store).1.2.2 = none := by
  refine ⟨rfl, rfl, ?_, ?_, rfl⟩
  · simp [StateOpH, FailedH, safeGetStatesH, allocMap]
  · intro x hx1 hx2
    simp [StateOpH, FailedH, safeGetStatesH, allocMap, hx1, hx2]

/-- C7: `State()` returns no error and a snapshot that is a fresh map
object holding value-copies of the store's entries: two successive
`State()` calls yield distinct objects, both distinct from the store;
each reads back exactly the store's contents; taking the snapshots
leaves the store object untouched; and an arbitrary sequence of caller
mutations (adds, overwrites, deletes) applied to either snapshot
changes neither the store object nor the other snapshot. -/
theorem C7_state_snapshots_independent (hp : MapHeap) (store : Nat)
    (k : String) (mus : List MapMut) (hv : store < hp.next)
    (hnd : ((hp.data store).map Prod.fst).Nodup) :
    (StateOpH hp store).1.2.2 = none ∧
    (StateOpH (StateOpH hp store).2 store).1.2.2 = none ∧
    (StateOpH hp store).1.1 ≠ store ∧
    (StateOpH (StateOpH hp store).2 store).1.1 ≠ store ∧
    (StateOpH hp store).1.1 ≠ (StateOpH (StateOpH hp store).2 store).1.1 ∧
    (StateOpH (StateOpH hp store).2 store).2.data store = hp.data store ∧
    mapGet ((StateOpH (StateOpH hp store).2 store).2.data
      (StateOpH hp store).1.1) k = mapGet (hp.data store) k ∧
    mapGet ((StateOpH (StateOpH hp store).2 store).2.data
      (StateOpH (StateOpH hp store).2 store).1.1) k =
      mapGet (hp.data store) k ∧
    (mutateRefAll (StateOpH (StateOpH hp store).2 store).2
      (StateOpH hp store).1.1 mus).data store = hp.data store ∧
    (mutateRefAll (StateOpH (StateOpH hp store).2 store).2
      (StateOpH hp store).1.1 mus).data
        (StateOpH (StateOpH hp store).2 store).1.1 =
      (StateOpH (StateOpH hp store).2 store).2.data
        (StateOpH (StateOpH hp store).2 store).1.1 ∧
    (mutateRefAll (StateOpH (StateOpH hp store).2 store).2
      (StateOpH (StateOpH hp store).2 store).1.1 mus).data store =
      hp.data store ∧
    (mutateRefAll (StateOpH (StateOpH hp store).2 store).2
      (StateOpH (StateOpH hp store).2 store).1.1 mus).data
        (StateOpH hp store).1.1 =
      (StateOpH (StateOpH hp store).2 store).2.data
        (StateOpH hp store).1.1 := by
  obtain ⟨ha1, ha2, ha3, ha4, ha5⟩ := stateOpH_spec hp store
  obtain ⟨hb1, hb2, hb3, hb4, hb5⟩ := stateOpH_spec (StateOpH hp store).2 store
  have hstore1 : (StateOpH hp store).2.data store = hp.data store :=
    ha4 store (by omega) (by omega)
  have hstoreF : (StateOpH (StateOpH hp store).2 store).2.data store =
      hp.data store := by
    rw [hb4 store (by rw [ha2]; omega) (by rw [ha2]; omega), hstore1]
  have hr1ne : (StateOpH hp store).1.1 ≠ store := by rw [ha1]; omega
  have hr2ne : (StateOpH (StateOpH hp store).2 store).1.1 ≠ store := by
    rw [hb1, ha2]; omega
  have hr12 : (StateOpH hp store).1.1 ≠
      (StateOpH (StateOpH hp store).2 store).1.1 := by
    rw [ha1, hb1, ha2]; omega
  have hdataR1 : (StateOpH (StateOpH hp store).2 store).2.data
      (StateOpH hp store).1.1 = copyStates (hp.data store) := by
    rw [ha1, hb4 hp.next (by rw [ha2]; omega) (by rw [ha2]; omega), ha3]
  have hdataR2 : (StateOpH (StateOpH hp store).2 store).2.data
      (StateOpH (StateOpH hp store).2 store).1.1 =
      copyStates (hp.data store) := by
    rw [hb1, hb3, hstore1]
  refine ⟨ha5, hb5, hr1ne, hr2ne, hr12, hstoreF, ?_, ?_, ?_, ?_, ?_, ?_⟩
  · rw [hdataR1, mapGet_copyStates (hp.data store) hnd k]
  · rw [hdataR2, mapGet_copyStates (hp.data store) hnd k]
  · rw [mutateRefAll_data_ne (StateOpH hp store).1.1 store
      (fun hx => hr1ne hx.symm) mus, hstoreF]
  · exact mutateRefAll_data_ne (StateOpH hp store).1.1
      (StateOpH (StateOpH hp store).2 store).1.1
      (fun hx => hr12 hx.symm) mus
      (StateOpH (StateOpH hp store).2 store).2
  · rw [mutateRefAll_data_ne (StateOpH (StateOpH hp store).2 store).1.1 store
      (fun hx => hr2ne hx.symm) mus, hstoreF]
  · exact mutateRefAll_data_ne (StateOpH (StateOpH hp store).2 store).1.1
      (StateOpH hp store).1.1 hr12 mus
      (StateOpH (StateOpH hp store).2 store).2

/-- Witness for C7 at a concrete heap: a one-entry store at reference
0, one overwrite and one delete applied to the first snapshot. -/
theorem C7_witness :
    (StateOpH { data := fun r => if r = 0 then [("bar", stBarFail)] else [],
                next := 1 } 0).1.2.2 = none ∧
    (mutateRefAll
      (StateOpH (StateOpH { data := fun r =>
          if r = 0 then [("bar", stBarFail)] else [], next := 1 } 0).2 0).2
      (StateOpH { data := fun r => if r = 0 then [("bar", stBarFail)] else [],
                  next := 1 } 0).1.1
      [MapMut.set "bar" zeroState, MapMut.del "bar"]).data 0 =
      ({ data := fun r => if r = 0 then [("bar", stBarFail)] else [],
         next := 1 } : MapHeap).data 0 := by
  have hmain := C7_state_snapshots_independent
    { data := fun r => if r = 0 then [("bar", stBarFail)] else [], next := 1 }
    0 "bar" [MapMut.set "bar" zeroState, MapMut.del "bar"]
    (by decide) (by decide)
  exact ⟨hmain.1, hmain.2.2.2.2.2.2.2.2.1⟩

/-- C8 counterexample: the source passes the `OnComplete` hook the
pointer `stateEntry` itself (`go cfg.OnComplete(stateEntry)`), not a
fresh copy: the hook's argument reference coincides with the worker's
state entry reference, and overwriting the object through the hook's
argument is visible through the worker's entry pointer — impossible had
the argument been an independent copy of the stored state. -/
theorem C8_counterexample :
    (checkFuncH true cfgBar [] ⟨none, some "boom", 7⟩
      { data := fun _ => zeroState, next := 0 }).hookArg =
      some (checkFuncH true cfgBar [] ⟨none, some "boom", 7⟩
        { data := fun _ => zeroState, next := 0 }).entry ∧
    (writeS
      (checkFuncH true cfgBar [] ⟨none, some "boom", 7⟩
        { data := fun _ => zeroState, next := 0 }).heap
      ((checkFuncH true cfgBar [] ⟨none, some "boom", 7⟩
        { data := fun _ => zeroState, next := 0 }).hookArg.getD 99)
      stBarFail).data
      (checkFuncH true cfgBar [] ⟨none, some "boom", 7⟩
        { data := fun _ => zeroState, next := 0 }).entry = stBarFail := by
  exact ⟨rfl, rfl⟩

/-- C8 amended: for a config with an `OnComplete` hook, the hook is
dispatched after the state is stored and receives a pointer to the
worker's state entry (not a fresh copy); at dispatch the pointee's
value equals the state stored for the config's name, and because
`safeUpdateState` stored a dereferenced value copy
(`h.states[stateEntry.Name] = *stateEntry`), overwriting the pointee
with any value changes the argument object but not the states map,
which still holds the original stored value. -/
theorem C8_hook_pointer_store_unaffected (listener : Bool) (cfg : Config)
    (m : StatesMap) (t : TickIn) (hp : SHeap) (v : State)
    (hHook : cfg.hasOnComplete = true) :
    (checkFuncH listener cfg m t hp).hookArg =
      some (checkFuncH listener cfg m t hp).entry ∧
    (checkFuncH listener cfg m t hp).heap.data
        (checkFuncH listener cfg m t hp).entry =
      mapGet (checkFuncH listener cfg m t hp).states cfg.Name ∧
    (writeS (checkFuncH listener cfg m t hp).heap
        (checkFuncH listener cfg m t hp).entry v).data
        (checkFuncH listener cfg m t hp).entry = v ∧
    (checkFuncH listener cfg m t hp).states =
      (checkFunc listener cfg m t).1 := by
  have hcons : (checkFuncH listener cfg m t hp).states =
      (checkFunc listener cfg m t).1 := by
    cases ht : t.failErr <;>
      simp [checkFuncH, checkFunc, allocS, writeS, prospectiveEntry, ht]
  have hentry : (checkFuncH listener cfg m t hp).heap.data
      (checkFuncH listener cfg m t hp).entry =
      (checkFunc listener cfg m t).2.2 := by
    cases ht : t.failErr <;>
      simp [checkFuncH, checkFunc, allocS, writeS, prospectiveEntry, ht]
  refine ⟨by simp [checkFuncH, hHook], ?_, by simp [writeS], hcons⟩
  rw [hentry, hcons, mapGet_checkFunc]

/-- Witness for the amended C8 at a concrete successful tick. -/
theorem C8_witness :
    (checkFuncH true cfgBar [] ⟨none, none, 3⟩
      { data := fun _ => zeroState, next := 5 }).hookArg =
      some (checkFuncH true cfgBar [] ⟨none, none, 3⟩
        { data := fun _ => zeroState, next := 5 }).entry ∧
    (checkFuncH true cfgBar [] ⟨none, none, 3⟩
      { data := fun _ => zeroState, next := 5 }).states =
      (checkFunc true cfgBar [] ⟨none, none, 3⟩).1 := by
  have hmain := C8_hook_pointer_store_unaffected true cfgBar []
    ⟨none, none, 3⟩ { data := fun _ => zeroState, next := 5 } stBarFail rfl
  exact ⟨hmain.1, hmain.2.2.2⟩
